import Mathlib

/-!
# Verification of the PlanetaryComputer example notebooks

This file gives a shallow embedding of the catalog-query-and-render pipeline
that the repository's notebooks implement, and proves the testable properties
of its specification against that embedding.

The repository is notebook glue over remote services and external libraries
(`pystac-client`, `planetary-computer`, `rasterio`, `requests`, `ipyleaflet`,
`shapely`, `pandas`/`dask`).  The glue itself (search invocations, the
area-of-overlap ranking, the `create_image` fetch pipeline, the FIA per-county
summary, `MLHubSession`, the mosaic registration round trip, the interactive
`browse` callback) is embedded faithfully from the notebook sources.  The
external collaborators are modelled from the specification; every such
definition carries a doc comment starting with `Modelled from the spec:`
naming what is missing from the sources.

Conventions: real arithmetic is modelled exactly over `ℚ`; Python strings are
`String` or, where character-level reasoning is needed, `List Char`; fallible
steps return `Option`/`Except`.
-/

/-! ## Geometry: polygon footprints and centroids -/

/-- A GeoJSON polygon geometry: its exterior ring, as (longitude, latitude)
pairs with the ring closed (first vertex repeated at the end), the form the
notebooks' item footprints take. -/
structure Geometry where
  ring : List (ℚ × ℚ)
deriving DecidableEq

/-- Consecutive vertex pairs of a ring. -/
def ringEdges (ring : List (ℚ × ℚ)) : List ((ℚ × ℚ) × (ℚ × ℚ)) :=
  ring.zip (ring.drop 1)

/-- The cross product of two vertices, the shoelace summand. -/
def vertexCross (p q : ℚ × ℚ) : ℚ := p.1 * q.2 - q.1 * p.2

/-- Modelled from the spec: `shapely`'s polygon centroid (`shape(...).centroid`),
missing from the sources (shapely is an external library).  The standard
area-weighted polygon centroid over the exterior ring, computed by the
shoelace formula; coordinates are returned as (x, y) = (longitude, latitude),
the order of `centroid.coords[0]`. -/
def centroid (ring : List (ℚ × ℚ)) : ℚ × ℚ :=
  let a2 := ((ringEdges ring).map fun pq => vertexCross pq.1 pq.2).sum
  let cx6 := ((ringEdges ring).map fun pq => (pq.1.1 + pq.2.1) * vertexCross pq.1 pq.2).sum
  let cy6 := ((ringEdges ring).map fun pq => (pq.1.2 + pq.2.2) * vertexCross pq.1 pq.2).sum
  (cx6 / (3 * a2), cy6 / (3 * a2))

/-! ## The map widget (`ipyleaflet`)

Modelled from the spec's render-sink contract: a persistent interactive map
whose display state is a center, a zoom level and a list of layers.  A layer
is either an XYZ tile layer holding a tile-URL template or a GeoJSON layer
holding a geometry. -/

/-- An `ipyleaflet` layer: a tile layer (`TileLayer(url=...)`) or a GeoJSON
footprint layer. -/
inductive Layer where
  | tileLayer (url : String)
  | geojson (data : Geometry)
deriving DecidableEq

/-- The display state of an `ipyleaflet.Map`: center, zoom, layers. -/
structure LMap where
  center : ℚ × ℚ
  zoom : ℕ
  layers : List Layer
deriving DecidableEq

/-- `m.add_layer(l)` / `m.add(l)`: appends a layer to the map. -/
def addLayer (m : LMap) (l : Layer) : LMap :=
  { m with layers := m.layers ++ [l] }

/-! ## C10: the interactive footprint browser (`browse`, src/unnamed/part_000) -/

/-- The separate `ipyleaflet.GeoJSON` widget whose `data` trait the browser
mutates. -/
structure GeoJSONLayer where
  data : Geometry
deriving DecidableEq

/-- An item of a catalog search result, as the spec's ItemRecord: identifier,
geometry (a required field of the data model), timestamp (seconds since the
epoch), collection and an open-ended property bag. -/
structure ItemRecord where
  id : String
  collection : String
  geometry : Geometry
  timestamp : ℕ
  properties : List (String × String)
deriving DecidableEq

/-- The mutable display state the browser notebook holds: the map `m` and the
GeoJSON `layer` added to it. -/
structure BrowserState where
  map : LMap
  layer : GeoJSONLayer
deriving DecidableEq

/-- The `browse` callback of src/unnamed/part_000, embedded from the source:
`m.center = tuple(shape.centroid.coords[0])[::-1]` sets the map center to the
item centroid with (x, y) reversed to (y, x), and `layer.data = item.geometry`
replaces the GeoJSON layer's data.  Nothing else of the display state is
assigned. -/
def browse (st : BrowserState) (item : ItemRecord) : BrowserState :=
  let c := centroid item.geometry.ring
  { map := { st.map with center := (c.2, c.1) },
    layer := { data := item.geometry } }

/-! ## C3: signing asset hrefs (`pc.sign`) -/

/-- An asset reference: href (as a character sequence, for character-level
reasoning about the URL), media-type hint. -/
structure AssetRef where
  href : List Char
  mediaType : String
deriving DecidableEq

/-- The unsigned base path of an href: everything before the first `?`. -/
def basePath (href : List Char) : List Char :=
  href.takeWhile (fun c => c != '?')

/-- Modelled from the spec: `pc.sign` (the planetary-computer package is an
external library), which "appends a time-limited access token (or equivalent)
to the href".  On an unsigned href the token is appended as the query string;
on an already-signed href the token is appended as a further query parameter.
The base path is never touched. -/
def signHref (token : List Char) (href : List Char) : List Char :=
  if '?' ∈ href then href ++ '&' :: token else href ++ '?' :: token

/-- Signing an asset reference rewrites only its href. -/
def sign (token : List Char) (a : AssetRef) : AssetRef :=
  { a with href := signHref token a.href }

/-! ## C7: the fixed-width resize of `create_image` (src/unnamed/part_001) -/

/-- `target_w = 800`, the fixed target width of `create_image`. -/
def target_w : ℕ := 800

/-- `aspect = w/h`, embedded from `create_image` (exact arithmetic over ℚ). -/
def aspect (w h : ℕ) : ℚ := (w : ℚ) / (h : ℚ)

/-- `target_h = (int)(target_w/aspect)`, embedded from `create_image`; Python's
`int()` truncates toward zero, which on the nonnegative values here is the
floor. -/
def target_h (w h : ℕ) : ℤ := ⌊(target_w : ℚ) / aspect w h⌋

/-! ## C5: area-overlap ranking (src/unnamed/part_001)

The notebook footprints and the area of interest are axis-aligned boxes, so
the geometry engine is modelled on those. -/

/-- An axis-aligned box in geographic coordinates. -/
structure Rect where
  minx : ℚ
  miny : ℚ
  maxx : ℚ
  maxy : ℚ
deriving DecidableEq

/-- Modelled from the spec: `shapely`'s `.area` on a box (degenerate and
empty boxes have area 0). -/
def rectArea (r : Rect) : ℚ :=
  max 0 (r.maxx - r.minx) * max 0 (r.maxy - r.miny)

/-- Modelled from the spec: `shapely`'s `.intersection` of two boxes. -/
def rectInter (a b : Rect) : Rect :=
  ⟨max a.minx b.minx, max a.miny b.miny, min a.maxx b.maxx, min a.maxy b.maxy⟩

/-- A NAIP candidate item: identifier and footprint. -/
structure NaipItem where
  id : String
  geometry : Rect
deriving DecidableEq

/-- `area_of_overlap`, embedded from src/unnamed/part_001:
`shape(item.geometry).intersection(shape(area_of_interest)).area / target_area`. -/
def area_of_overlap (aoi : Rect) (item : NaipItem) : ℚ :=
  rectArea (rectInter item.geometry aoi) / rectArea aoi

/-- `sorted(search.items(), key=area_of_overlap, reverse=True)`, embedded from
src/unnamed/part_001.  Python's `sorted` is a stable sort; with `reverse=True`
it is the stable sort that puts larger keys first and keeps the input order of
equal keys, which is `List.insertionSort` under the "key at least as large"
relation. -/
def rankByOverlap (aoi : Rect) (items : List NaipItem) : List NaipItem :=
  items.insertionSort fun a b => area_of_overlap aoi b ≤ area_of_overlap aoi a

/-- Fixture: a square area of interest. -/
def wAoi : Rect := ⟨0, 0, 10, 10⟩

/-- Fixture: left half of `wAoi`. -/
def wHalfItem : NaipItem := ⟨"m_half_left", ⟨0, 0, 5, 10⟩⟩

/-- Fixture: all of `wAoi`. -/
def wFullItem : NaipItem := ⟨"m_full", ⟨0, 0, 10, 10⟩⟩

/-- Fixture: right half of `wAoi`. -/
def wHalfItem2 : NaipItem := ⟨"m_half_right", ⟨5, 0, 10, 10⟩⟩

/-- Fixture: candidate list for the ranking witness. -/
def wItems : List NaipItem := [wHalfItem, wFullItem, wHalfItem2]

/-! ## C2: catalog search with a result cap (src/unnamed/part_000) -/

/-- A datetime filter of a search: a single calendar day (an instant date such
as `"2023-04-01"` denotes that whole day) or a closed interval of
timestamps. -/
inductive DatetimeFilter where
  | day (d : ℕ)
  | interval (lo hi : ℕ)
deriving DecidableEq

/-- The calendar day of an epoch timestamp. -/
def dayOf (t : ℕ) : ℕ := t / 86400

/-- Whether a timestamp satisfies a datetime filter. -/
def dtMatches : DatetimeFilter → ℕ → Bool
  | .day d, t => dayOf t == d
  | .interval lo hi, t => decide (lo ≤ t) && decide (t ≤ hi)

/-- The spec's SearchRequest: collection identifiers, optional datetime filter,
attribute-equality filters, sort key and result cap (`max_items`). -/
structure SearchRequest where
  collections : List String
  datetime : Option DatetimeFilter
  query : List (String × String)
  sortByDatetime : Bool
  maxItems : Option ℕ
deriving DecidableEq

/-- Whether an item matches a search request: collection, datetime and
attribute-equality filters. -/
def itemMatches (p : SearchRequest) (it : ItemRecord) : Bool :=
  p.collections.contains it.collection &&
    (match p.datetime with
      | none => true
      | some f => dtMatches f it.timestamp) &&
    p.query.all fun kv => it.properties.contains kv

/-- Modelled from the spec: the catalog client's
`search(collection_ids, datetime?, attribute_filters?, sort?, limit?)`
(pystac-client is an external library; only its invocations appear in the
sources).  The client filters the catalog's items by the request, sorts by
the sort key (stably, by timestamp) when one is given, and caps the
materialized sequence at the result cap. -/
def search (p : SearchRequest) (db : List ItemRecord) : List ItemRecord :=
  let filtered := db.filter (itemMatches p)
  let sorted :=
    if p.sortByDatetime then
      filtered.insertionSort fun a b => a.timestamp ≤ b.timestamp
    else filtered
  match p.maxItems with
  | some n => sorted.take n
  | none => sorted

/-- The day number of 2023-04-01 (days since 1970-01-01). -/
def day20230401 : ℕ := 19448

/-- The search request of src/unnamed/part_000: collection `sentinel-2-l2a`,
datetime `"2023-04-01"`, `query={"platform": {"eq": "Sentinel-2B"}}`,
`sortby="datetime"`, `max_items=200`. -/
def s2SearchRequest : SearchRequest :=
  { collections := ["sentinel-2-l2a"]
    datetime := some (.day day20230401)
    query := [("platform", "Sentinel-2B")]
    sortByDatetime := true
    maxItems := some 200 }

/-- Fixture: a footprint ring. -/
def unitSquareRing : List (ℚ × ℚ) := [(0, 0), (1, 0), (1, 1), (0, 1), (0, 0)]

/-- Fixture: a Sentinel-2 item on 2023-04-01. -/
def s2ExampleItem : ItemRecord :=
  { id := "S2B_MSIL2A_20230401T003709_R059_T55MGU_20230401T043754"
    collection := "sentinel-2-l2a"
    geometry := ⟨unitSquareRing⟩
    timestamp := day20230401 * 86400 + 2229
    properties := [("platform", "Sentinel-2B")] }

/-- Fixture: an item of another collection, filtered out. -/
def otherCollectionItem : ItemRecord :=
  { id := "some_landsat_item"
    collection := "landsat-c2-l2"
    geometry := ⟨unitSquareRing⟩
    timestamp := day20230401 * 86400 + 100
    properties := [("platform", "landsat-8")] }

/-- Fixture: a small catalog for the search witness. -/
def s2ExampleDb : List ItemRecord := [otherCollectionItem, s2ExampleItem]

/-! ## C9: `MLHubSession` (noaa-climate-normals-tabular-example.ipynb)

URL surgery is modelled on character sequences. -/

/-- Whether the pattern is a leading segment of the list. -/
def leadsWith : List Char → List Char → Bool
  | [], _ => true
  | _ :: _, [] => false
  | a :: as, b :: bs => a == b && leadsWith as bs

/-- Whether the pattern occurs anywhere in the list. -/
def hasSeq (pat : List Char) : List Char → Bool
  | [] => leadsWith pat []
  | c :: tl => leadsWith pat (c :: tl) || hasSeq pat tl

/-- Split a list at the first occurrence of the pattern, returning the parts
before and after it. -/
def splitAtSeq (pat : List Char) : List Char → Option (List Char × List Char)
  | [] => if leadsWith pat [] then some ([], []) else none
  | c :: tl =>
    if leadsWith pat (c :: tl) then some ([], (c :: tl).drop pat.length)
    else
      match splitAtSeq pat tl with
      | some (pre, post) => some (c :: pre, post)
      | none => none

/-- `"://"`, the scheme separator. -/
def schemeSep : List Char := [':', '/', '/']

/-- Python's `str.rstrip("/")`: drop trailing slashes. -/
def rstripSlash (s : String) : String :=
  String.mk ((s.toList.reverse.dropWhile fun c => c == '/').reverse)

/-- Modelled from the spec: `urllib.parse.urljoin` (an external library, used
by `requests` to resolve a request URL against a base), restricted to the URL
forms the notebook uses — an absolute URL is returned unchanged, a
scheme-relative `//...` URL takes the base's scheme, a root-relative `/...`
URL is resolved against the base's scheme and network location, and any other
relative URL is resolved against the base URL's directory. -/
def urljoin (base url : String) : String :=
  let b := base.toList
  let u := url.toList
  String.mk
    (if hasSeq schemeSep u then u
    else if leadsWith ['/', '/'] u then
      match splitAtSeq schemeSep b with
      | some (pre, _) => pre ++ ':' :: u
      | none => u
    else if leadsWith ['/'] u then
      match splitAtSeq schemeSep b with
      | some (pre, post) => pre ++ schemeSep ++ (post.takeWhile fun c => c != '/') ++ u
      | none => u
    else if u.isEmpty then b
    else ((b.reverse.dropWhile fun c => c != '/').reverse) ++ u)

/-- `MLHUB_ROOT_URL`, embedded from the notebook. -/
def MLHUB_ROOT_URL : String := "https://api.radiant.earth/mlhub/v1"

/-- The `MLHubSession` of the notebook: a `requests.Session` whose constructor
runs `self.params.update({"key": api_key})`. -/
structure MLHubSession where
  apiKey : String
deriving DecidableEq

/-- The session-level query parameters after `__init__`. -/
def MLHubSession.sessionParams (s : MLHubSession) : List (String × String) :=
  [("key", s.apiKey)]

/-- An outgoing HTTP request: method, resolved URL and query parameters. -/
structure HttpRequest where
  method : String
  url : String
  params : List (String × String)
deriving DecidableEq

/-- `MLHubSession.request`, embedded from the notebook:
`url_prefix = MLHUB_ROOT_URL.rstrip("/") + "/"; url = urljoin(url_prefix, url)`
and then delegation to `requests.Session.request`, which (modelled from the
spec's external-interface contract) attaches the session's query parameters to
the outgoing request. -/
def MLHubSession.request (s : MLHubSession) (method url : String) : HttpRequest :=
  { method := method
    url := urljoin (rstripSlash MLHUB_ROOT_URL ++ "/") url
    params := s.sessionParams }

/-- `session.get(...)`, as `requests` defines it: a request with method GET. -/
def MLHubSession.get (s : MLHubSession) (url : String) : HttpRequest :=
  s.request "GET" url

/-! ## C8: the FIA per-county summary (fia-example.ipynb) -/

/-- A row of the FIA `plot` table, with the columns the notebook reads. -/
structure PlotRow where
  CN : ℕ
  STATECD : ℕ
  COUNTYCD : ℕ
deriving DecidableEq

/-- A row of the FIA `tree` table, with the columns the notebook reads. -/
structure TreeRow where
  PLT_CN : ℕ
  CONDID : ℕ
  TREE : ℕ
  DRYBIO_AG : ℚ
  CARBON_AG : ℚ
  TPA_UNADJ : ℚ
deriving DecidableEq

/-- The tree table as read in the notebook:
`dd.read_parquet(..., filters=[("CONDID", "==", 1)])`. -/
def treeTable (trees : List TreeRow) : List TreeRow :=
  trees.filter fun t => t.CONDID == 1

/-- A row of the joined dataframe. -/
structure FiaJoinedRow where
  tree : TreeRow
  plot : PlotRow
deriving DecidableEq

/-- `df = tree.merge(plot.assign(PLT_CN=plot.CN), on="PLT_CN")`, embedded from
the notebook: the inner join of the filtered tree table with the plot table on
`PLT_CN` (which on the plot side is a copy of `CN`). -/
def fiaMerged (trees : List TreeRow) (plots : List PlotRow) : List FiaJoinedRow :=
  (treeTable trees).flatMap fun t =>
    (plots.filter fun p => p.CN == t.PLT_CN).map fun p => ⟨t, p⟩

/-- `bio = DRYBIO_AG * TPA_UNADJ / 2000`, embedded from the notebook. -/
def fiaBio (r : FiaJoinedRow) : ℚ := r.tree.DRYBIO_AG * r.tree.TPA_UNADJ / 2000

/-- `carbon = CARBON_AG * TPA_UNADJ / 2000`, embedded from the notebook. -/
def fiaCarbon (r : FiaJoinedRow) : ℚ := r.tree.CARBON_AG * r.tree.TPA_UNADJ / 2000

/-- The groupby key of a joined row: `(STATECD, COUNTYCD)`. -/
def fiaKey (r : FiaJoinedRow) : ℕ × ℕ := (r.plot.STATECD, r.plot.COUNTYCD)

/-- pandas `.str.pad(w, fillchar="0")`: left-pad with a fill character to the
given width (strings already at least that wide are unchanged). -/
def padLeft (w : ℕ) (c : Char) (s : String) : String :=
  String.mk (List.replicate (w - s.length) c) ++ s

/-- A row of the per-county summary: the summed `bio` and `carbon` and the
padded `STATE`/`COUNTY` strings; the numeric `STATECD`/`COUNTYCD` columns are
dropped. -/
structure SummaryRow where
  bio : ℚ
  carbon : ℚ
  STATE : String
  COUNTY : String
deriving DecidableEq

/-- The per-county summary, embedded from the notebook:
`df.groupby(["STATECD", "COUNTYCD"])[["bio", "carbon"]].sum()` followed by
`reset_index`, the `STATE`/`COUNTY` string-padding assignment and
`drop(columns=["STATECD", "COUNTYCD"])`.  One output row per distinct key of
the joined dataframe. -/
def fiaResult (plots : List PlotRow) (trees : List TreeRow) : List SummaryRow :=
  let df := fiaMerged trees plots
  ((df.map fiaKey).dedup).map fun k =>
    let grp := df.filter fun r => fiaKey r == k
    { bio := (grp.map fiaBio).sum
      carbon := (grp.map fiaCarbon).sum
      STATE := padLeft 2 '0' (toString k.1)
      COUNTY := padLeft 3 '0' (toString k.2) }

/-- Fixture: a plot in state 6, county 37. -/
def wPlots : List PlotRow := [⟨1, 6, 37⟩]

/-- Fixture: one tree with condition 1 on that plot, and one with condition 2
that the read filter drops. -/
def wTrees : List TreeRow :=
  [⟨1, 1, 1, 2000, 2000, 1⟩, ⟨1, 2, 2, 9999, 9999, 5⟩]

/-- Fixture: the expected summary row for the fixture tables. -/
def wSummaryRow : SummaryRow :=
  { bio := 1, carbon := 1, STATE := "06", COUNTY := "037" }

/-! ## C1: mosaic registration round trip
(noaa-climate-normals-tabular-example.ipynb) -/

/-- The Planetary Computer data API root. -/
def pcDataRoot : String := "https://planetarycomputer.microsoft.com/api/data/v1"

/-- A URL below the data API root: its path segments and query string. -/
structure MosaicUrl where
  segs : List String
  query : String
deriving DecidableEq

/-- A link of the registration response: relation name and href. -/
structure MosaicLink where
  rel : String
  href : MosaicUrl
deriving DecidableEq

/-- The spec's MosaicRegistration: the server-assigned opaque `searchid` plus
the metadata and tilejson links. -/
structure Registration where
  searchid : String
  links : List MosaicLink
deriving DecidableEq

/-- The tilejson response: tile-URL templates and zoom range. -/
structure TileJson where
  tiles : List String
  minzoom : ℕ
  maxzoom : ℕ
deriving DecidableEq

/-- Modelled from the spec: the remote mosaic registration endpoint
(`POST` a JSON body `{collection, filter}` to `/mosaic/register` returns
`{searchid, links[]}`).  The server-assigned opaque identifier is a parameter
of the model; the response links are the metadata and tilejson URLs carrying
that identifier, as in the recorded notebook output. -/
def registerMosaic (sid collection filterExpr : String) : Registration :=
  { searchid := sid
    links := [⟨"metadata", ⟨["mosaic", sid, "info"], ""⟩⟩,
      ⟨"tilejson", ⟨["mosaic", sid, "tilejson.json"], ""⟩⟩] }

/-- The templated tile-URL pattern: the registered identifier and the query's
rendering parameters substituted into the per-tile `{z}/{x}/{y}` pattern. -/
def tileTemplate (sid query : String) : String :=
  pcDataRoot ++ "/mosaic/tiles/" ++ sid ++
    "/WebMercatorQuad/\x7bz\x7d/\x7bx\x7d/\x7by\x7d@1x?" ++ query

/-- Modelled from the spec: the remote tilejson endpoint (a `GET` on the
tilejson link returns `{tiles: [urlTemplate], bounds, center, minzoom,
maxzoom}`); the server serves `/mosaic/{searchid}/tilejson.json` and
substitutes the identifier and the query's rendering parameters into the
templated tile-URL pattern. -/
def getTileJson (u : MosaicUrl) : Option TileJson :=
  match u.segs with
  | [a, sid, b] =>
    if a = "mosaic" ∧ b = "tilejson.json" then
      some { tiles := [tileTemplate sid u.query], minzoom := 0, maxzoom := 24 }
    else none
  | _ => none

/-- The mosaic round trip of the notebook, embedded from the source:
`registered = requests.post(.../mosaic/register, json={"collection": ...,
"filter": ...}).json()`, then `tilejson_url = registered["links"][1]["href"]`,
then `tiles = requests.get(f"{tilejson_url}?collection={...}&{render_options}")
.json()["tiles"][0]`. -/
def mosaicTiles (sid collection filterExpr renderOptions : String) :
    Option String :=
  let registered := registerMosaic sid collection filterExpr
  match registered.links[1]? with
  | none => none
  | some link =>
    match getTileJson
        { link.href with query := "collection=" ++ collection ++ "&" ++ renderOptions } with
    | none => none
    | some tj => tj.tiles[0]?

/-- `m.add_layer(ipyleaflet.TileLayer(url=tiles))`, embedded from the source:
the resolved template is handed unmodified to the map widget. -/
def mosaicMap (m0 : LMap) (sid collection filterExpr renderOptions : String) :
    LMap :=
  match mosaicTiles sid collection filterExpr renderOptions with
  | some tiles => addLayer m0 (.tileLayer tiles)
  | none => m0

/-! ## C4 and C6: the windowed raster fetch of `create_image`
(src/unnamed/part_001)

`rasterio` is an external library; its reprojection, window computation and
windowed read are modelled from the spec's fetch-adapter contract, restricted
to north-up affine datasets and per-axis monotone affine reprojection (the
forms the notebook uses). -/

/-- A geographic or native bounding box `(left, bottom, right, top)`. -/
structure Bounds where
  left : ℚ
  bottom : ℚ
  right : ℚ
  top : ℚ
deriving DecidableEq

/-- A north-up affine geotransform: pixel `(row, col)` has native coordinates
`x = x0 + px * col`, `y = y0 - py * row`, with `px, py > 0`. -/
structure GeoTransform where
  x0 : ℚ
  y0 : ℚ
  px : ℚ
  py : ℚ
deriving DecidableEq

/-- A per-axis monotone affine reprojection from geographic (EPSG:4326) into
the dataset's native CRS: `X = ox + sx * gx`, `Y = oy + sy * gy` with
`sx, sy > 0`. -/
structure CrsTransform where
  sx : ℚ
  ox : ℚ
  sy : ℚ
  oy : ℚ
deriving DecidableEq

/-- Modelled from the spec: `rasterio.warp.transform_bounds('epsg:4326',
ds.crs, *bounds)`, restricted to per-axis monotone affine reprojection, where
it maps each bound through the axis map. -/
def transform_bounds (w : CrsTransform) (b : Bounds) : Bounds :=
  ⟨w.ox + w.sx * b.left, w.oy + w.sy * b.bottom,
    w.ox + w.sx * b.right, w.oy + w.sy * b.top⟩

/-- A pixel window: half-open column and row ranges (possibly extending
outside the dataset extent, or empty). -/
structure PixelWindow where
  colOff : ℤ
  rowOff : ℤ
  colEnd : ℤ
  rowEnd : ℤ
deriving DecidableEq

/-- Modelled from the spec: `rasterio.windows.from_bounds(transform=...,
*bounds)` — the pixel window covering the native-CRS bounds under the inverse
geotransform (offsets rounded down, ends rounded up). -/
def from_bounds (t : GeoTransform) (b : Bounds) : PixelWindow :=
  { colOff := ⌊(b.left - t.x0) / t.px⌋
    rowOff := ⌊(t.y0 - b.top) / t.py⌋
    colEnd := ⌈(b.right - t.x0) / t.px⌉
    rowEnd := ⌈(t.y0 - b.bottom) / t.py⌉ }

/-- An opened raster dataset: extent in pixels, band count, geotransform, the
reprojection from geographic coordinates into its CRS, and its pixel values
(band, row, col). -/
structure Raster where
  width : ℕ
  height : ℕ
  count : ℕ
  transform : GeoTransform
  crs : CrsTransform
  pix : ℕ → ℕ → ℕ → ℚ

/-- First dataset row of the clipped window. -/
def rowLo (w : PixelWindow) : ℤ := max 0 w.rowOff

/-- Row clip upper end. -/
def rowHi (ds : Raster) (w : PixelWindow) : ℤ := min (ds.height : ℤ) w.rowEnd

/-- First dataset column of the clipped window. -/
def colLo (w : PixelWindow) : ℤ := max 0 w.colOff

/-- Column clip upper end. -/
def colHi (ds : Raster) (w : PixelWindow) : ℤ := min (ds.width : ℤ) w.colEnd

/-- Number of rows of the clipped window. -/
def numRows (ds : Raster) (w : PixelWindow) : ℕ := (rowHi ds w - rowLo w).toNat

/-- Number of columns of the clipped window. -/
def numCols (ds : Raster) (w : PixelWindow) : ℕ := (colHi ds w - colLo w).toNat

/-- Modelled from the spec: `ds.read(indexes=..., window=...)` — an invalid
band index is a request-construction error; otherwise the read returns, for
each requested band, the pixels of the window clipped to the dataset extent
(row-major), without touching anything outside the intersection. -/
def readWindow (ds : Raster) (indexes : List ℕ) (w : PixelWindow) :
    Except String (List (List (List ℚ))) :=
  if indexes.all fun i => decide (1 ≤ i) && decide (i ≤ ds.count) then
    .ok (indexes.map fun b =>
      (List.range (numRows ds w)).map fun r =>
        (List.range (numCols ds w)).map fun c =>
          ds.pix b ((rowLo w).toNat + r) ((colLo w).toNat + c))
  else .error "band index out of range"

/-- The fetch steps of `create_image`, embedded from the source:
`aoi_bounds = features.bounds(area_of_interest)`,
`warped_aoi_bounds = warp.transform_bounds('epsg:4326', ds.crs, *aoi_bounds)`,
`aoi_window = windows.from_bounds(transform=ds.transform, *warped_aoi_bounds)`,
`band_data = ds.read(indexes=[1,2,3], window=aoi_window)`. -/
def aoiFetch (ds : Raster) (aoi : Bounds) : Except String (List (List (List ℚ))) :=
  let warped := transform_bounds ds.crs aoi
  let aoi_window := from_bounds ds.transform warped
  readWindow ds [1, 2, 3] aoi_window

/-- The spec side of the windowed-read contract, stated from the spec's words:
the requested geographic bounds are reprojected into the native CRS before the
read window is computed, and the read returns only the pixels of the dataset
grid whose indices fall inside that window — here phrased as a filter of the
full dataset grid. -/
def specWindowedRead (ds : Raster) (aoi : Bounds) (indexes : List ℕ) :
    Except String (List (List (List ℚ))) :=
  let w := from_bounds ds.transform (transform_bounds ds.crs aoi)
  if indexes.all fun i => decide (1 ≤ i) && decide (i ≤ ds.count) then
    .ok (indexes.map fun b =>
      ((List.range ds.height).filter fun (r : ℕ) =>
          decide (w.rowOff ≤ (r : ℤ) ∧ (r : ℤ) < w.rowEnd)).map fun r =>
        ((List.range ds.width).filter fun (c : ℕ) =>
            decide (w.colOff ≤ (c : ℤ) ∧ (c : ℤ) < w.colEnd)).map fun c =>
          ds.pix b r c)
  else .error "band index out of range"

/-- The asset's extent in geographic coordinates: the native extent pulled
back through the (monotone) reprojection. -/
def geoExtent (ds : Raster) : Bounds :=
  { left := (ds.transform.x0 - ds.crs.ox) / ds.crs.sx
    right := (ds.transform.x0 + ds.transform.px * ds.width - ds.crs.ox) / ds.crs.sx
    top := (ds.transform.y0 - ds.crs.oy) / ds.crs.sy
    bottom := (ds.transform.y0 - ds.transform.py * ds.height - ds.crs.oy) / ds.crs.sy }

/-- Two bounding boxes do not intersect (touching at an edge counts as not
intersecting for a half-open pixel grid). -/
def disjointBounds (a b : Bounds) : Prop :=
  a.right ≤ b.left ∨ b.right ≤ a.left ∨ a.top ≤ b.bottom ∨ b.top ≤ a.bottom

/-- Fixture: a 10x10 three-band dataset over native extent [0,10]x[0,10] with
the identity reprojection. -/
def wRaster : Raster :=
  { width := 10, height := 10, count := 3
    transform := ⟨0, 10, 1, 1⟩
    crs := ⟨1, 0, 1, 0⟩
    pix := fun b r c => (b : ℚ) + r + c }

/-- Fixture: a bounding box entirely west of `wRaster`. -/
def wOutsideAoi : Bounds := ⟨-5, 0, -1, 5⟩

/-- Fixture: a bounding box overlapping the north-west of `wRaster`. -/
def wOverlapAoi : Bounds := ⟨-2, 7, 3, 12⟩

/-! ## Theorems -/

/-- Appending to a list does not change `takeWhile` when some element of the
first list already fails the predicate. -/
theorem takeWhile_append_of_exists_not {p : Char → Bool} (l r : List Char)
    (h : ∃ c ∈ l, p c = false) : (l ++ r).takeWhile p = l.takeWhile p := by
  induction l with
  | nil => obtain ⟨c, hc, _⟩ := h; simp at hc
  | cons a l ih =>
    obtain ⟨c, hc, hpc⟩ := h
    rcases List.mem_cons.mp hc with rfl | hcl
    · simp [List.takeWhile, hpc]
    · by_cases hpa : p a
      · simp [List.takeWhile, hpa, ih ⟨c, hcl, hpc⟩]
      · simp [List.takeWhile, hpa]

/-- Appending to a list whose elements all satisfy the predicate pushes
`takeWhile` into the second list. -/
theorem takeWhile_append_of_all {p : Char → Bool} (l r : List Char)
    (h : ∀ c ∈ l, p c = true) : (l ++ r).takeWhile p = l ++ r.takeWhile p := by
  induction l with
  | nil => simp
  | cons a l ih =>
    have ha := h a (List.mem_cons_self a l)
    simp [List.takeWhile, ha, ih fun c hc => h c (List.mem_cons_of_mem a hc)]

/-- Signing leaves the unsigned base path of an href unchanged. -/
theorem basePath_signHref (token : List Char) (href : List Char) :
    basePath (signHref token href) = basePath href := by
  unfold signHref basePath
  by_cases h : '?' ∈ href
  · rw [if_pos h]
    exact takeWhile_append_of_exists_not href _ ⟨'?', h, by decide⟩
  · rw [if_neg h]
    have hall : ∀ c ∈ href, (c != '?') = true := by
      intro c hc
      have : c ≠ '?' := fun hcq => h (hcq ▸ hc)
      simpa using this
    rw [takeWhile_append_of_all href _ hall, List.takeWhile_eq_self_iff.mpr hall]
    simp [List.takeWhile]

/-- C3.  Signing is idempotent on the base path: signing an already-signed
AssetRef a second time yields an href whose unsigned base path equals the base
path of the original unsigned href; moreover each signing step only appends to
the href, never replacing or altering it. -/
theorem sign_idempotent_basePath (a : AssetRef) (t1 t2 : List Char) :
    basePath (sign t2 (sign t1 a)).href = basePath a.href ∧
    (∀ t : List Char, ∃ suffix, (sign t a).href = a.href ++ suffix) := by
  constructor
  · show basePath (signHref t2 (signHref t1 a.href)) = basePath a.href
    rw [basePath_signHref, basePath_signHref]
  · intro t
    show ∃ suffix, signHref t a.href = a.href ++ suffix
    unfold signHref
    by_cases h : '?' ∈ a.href
    · exact ⟨'&' :: t, by rw [if_pos h]⟩
    · exact ⟨'?' :: t, by rw [if_neg h]⟩

/-- C7.  For a window of width `w > 0` and height `h > 0`, the computed target
height `(int)(800/(w/h))` differs from the exact aspect-preserving height
`800*h/w` by less than one pixel. -/
theorem resize_preserves_aspect (w h : ℕ) (hw : 0 < w) (hh : 0 < h) :
    |(target_h w h : ℚ) - (target_w : ℚ) * h / w| < 1 := by
  have hw' : (w : ℚ) ≠ 0 := Nat.cast_ne_zero.mpr hw.ne'
  have hh' : (h : ℚ) ≠ 0 := Nat.cast_ne_zero.mpr hh.ne'
  have hq : (target_w : ℚ) / aspect w h = (target_w : ℚ) * h / w := by
    unfold aspect; field_simp
  rw [target_h, hq]
  set q : ℚ := (target_w : ℚ) * h / w
  rw [abs_sub_lt_iff]
  constructor
  · have := Int.floor_le q
    linarith
  · have := Int.sub_one_lt_floor q
    linarith

/-- Witness for C7 at `w = 1600`, `h = 1126` (the dimensions producing the
`800x563` image of the notebook output). -/
theorem resize_preserves_aspect_witness :
    0 < 1600 ∧ 0 < 1126 ∧
      |(target_h 1600 1126 : ℚ) - (target_w : ℚ) * 1126 / 1600| < 1 :=
  ⟨by norm_num, by norm_num,
    resize_preserves_aspect 1600 1126 (by norm_num) (by norm_num)⟩

/-- C10.  The `browse` callback mutates only the map center (set to the item
centroid with its coordinate pair reversed from (lon, lat) to (lat, lon)) and
the GeoJSON layer's data (set to exactly the selected item's geometry); the
map's zoom level and its list of layers are unchanged. -/
theorem browse_frame_effect (st : BrowserState) (item : ItemRecord) :
    (browse st item).map.zoom = st.map.zoom ∧
    (browse st item).map.layers = st.map.layers ∧
    (browse st item).map.center =
      ((centroid item.geometry.ring).2, (centroid item.geometry.ring).1) ∧
    (browse st item).layer.data = item.geometry :=
  ⟨rfl, rfl, rfl, rfl⟩

/-- Any two elements of a list with the same overlap key are related by the
descending-key relation. -/
theorem pairwise_filter_eq_key (aoi : Rect) (items : List NaipItem) (q : ℚ) :
    (items.filter fun it => decide (area_of_overlap aoi it = q)).Pairwise
      (fun a b => area_of_overlap aoi b ≤ area_of_overlap aoi a) := by
  apply List.pairwise_of_forall_mem_list
  intro a ha b hb
  have ha' := of_decide_eq_true (List.mem_filter.mp ha).2
  have hb' := of_decide_eq_true (List.mem_filter.mp hb).2
  rw [ha', hb']

/-- C5.  Sorting candidates by descending overlap ratio places an item of
maximal overlap first, and candidates with equal overlap ratio keep their
relative input order (the sort is stable). -/
theorem overlap_ranking_max_first_stable (aoi : Rect) (items : List NaipItem) :
    (∀ first, (rankByOverlap aoi items).head? = some first →
      ∀ x ∈ items, area_of_overlap aoi x ≤ area_of_overlap aoi first) ∧
    (∀ q : ℚ,
      (rankByOverlap aoi items).filter (fun it => decide (area_of_overlap aoi it = q)) =
        items.filter fun it => decide (area_of_overlap aoi it = q)) := by
  set r : NaipItem → NaipItem → Prop :=
    fun a b => area_of_overlap aoi b ≤ area_of_overlap aoi a with hr
  haveI : IsTotal NaipItem r := ⟨fun a b => le_total _ _⟩
  haveI : IsTrans NaipItem r := ⟨fun _ _ _ hab hbc => le_trans hbc hab⟩
  constructor
  · intro first hfirst x hx
    have hs : (rankByOverlap aoi items).Sorted r := List.sorted_insertionSort r items
    have hmem : x ∈ rankByOverlap aoi items := by
      unfold rankByOverlap
      exact (List.mem_insertionSort r).mpr hx
    obtain ⟨rest, hrank⟩ : ∃ rest, rankByOverlap aoi items = first :: rest := by
      cases hrk : rankByOverlap aoi items with
      | nil => rw [hrk] at hfirst; simp at hfirst
      | cons a tl =>
        rw [hrk] at hfirst
        simp only [List.head?_cons, Option.some.injEq] at hfirst
        subst hfirst
        exact ⟨tl, rfl⟩
    rw [hrank] at hs hmem
    rcases List.mem_cons.mp hmem with rfl | hxrest
    · exact le_refl _
    · exact List.rel_of_sorted_cons hs x hxrest
  · intro q
    set p : NaipItem → Bool := fun it => decide (area_of_overlap aoi it = q) with hp
    have hpair : (items.filter p).Pairwise r := pairwise_filter_eq_key aoi items q
    have hsub : List.Sublist (items.filter p) (List.insertionSort r items) :=
      List.sublist_insertionSort hpair (List.filter_sublist items)
    have hsub2 : List.Sublist (items.filter p) ((List.insertionSort r items).filter p) := by
      have hpp : (items.filter p).filter p = items.filter p :=
        List.filter_eq_self.mpr fun a ha => (List.mem_filter.mp ha).2
      have h1 := hsub.filter p
      rwa [hpp] at h1
    have hperm : List.Perm ((List.insertionSort r items).filter p) (items.filter p) :=
      (List.perm_insertionSort r items).filter p
    have heq : items.filter p = (List.insertionSort r items).filter p :=
      hsub2.eq_of_length hperm.length_eq.symm
    exact heq.symm

/-- Witness for C5 on a concrete area of interest and candidate list: the full
overlap item is ranked first, and the half-overlap item's ratio is at most
its ratio. -/
theorem overlap_ranking_max_first_stable_witness :
    ((rankByOverlap wAoi wItems).head? = some wFullItem ∧ wHalfItem ∈ wItems) ∧
      area_of_overlap wAoi wHalfItem ≤ area_of_overlap wAoi wFullItem :=
  ⟨⟨by norm_num [rankByOverlap, area_of_overlap, rectArea, rectInter, wAoi, wItems,
      wHalfItem, wFullItem, wHalfItem2, max_def, min_def],
    by simp [wItems]⟩,
    (overlap_ranking_max_first_stable wAoi wItems).1 wFullItem
      (by norm_num [rankByOverlap, area_of_overlap, rectArea, rectInter, wAoi, wItems,
        wHalfItem, wFullItem, wHalfItem2, max_def, min_def])
      wHalfItem (by simp [wItems])⟩

/-- C2.  A search with result cap `N` returns at most `N` items; the
Sentinel-2 search of src/unnamed/part_000 (collection `sentinel-2-l2a`,
datetime `"2023-04-01"`, cap 200) returns at most 200 items, every one of
which has its timestamp within the requested date. -/
theorem search_respects_limit :
    (∀ (p : SearchRequest) (db : List ItemRecord) (N : ℕ),
        p.maxItems = some N → (search p db).length ≤ N) ∧
    (∀ db : List ItemRecord, (search s2SearchRequest db).length ≤ 200) ∧
    (∀ db : List ItemRecord, ∀ it ∈ search s2SearchRequest db,
        dayOf it.timestamp = day20230401) := by
  have hlimit : ∀ (p : SearchRequest) (db : List ItemRecord) (N : ℕ),
      p.maxItems = some N → (search p db).length ≤ N := by
    intro p db N hN
    unfold search
    rw [hN]
    exact List.length_take_le N _
  refine ⟨hlimit, fun db => hlimit s2SearchRequest db 200 rfl, ?_⟩
  intro db it hit
  unfold search at hit
  have hm : s2SearchRequest.maxItems = some 200 := rfl
  rw [hm] at hit
  have hit' := List.mem_of_mem_take hit
  have hmem : it ∈ (db.filter (itemMatches s2SearchRequest)) := by
    have hsb : s2SearchRequest.sortByDatetime = true := rfl
    rw [hsb] at hit'
    simp only [if_true] at hit'
    exact (List.mem_insertionSort _).mp hit'
  have hmatch := (List.mem_filter.mp hmem).2
  unfold itemMatches at hmatch
  simp only [Bool.and_eq_true] at hmatch
  have hdt : dtMatches (.day day20230401) it.timestamp = true := by
    have := hmatch.1.2
    simpa [s2SearchRequest] using this
  rw [dtMatches] at hdt
  simp only [beq_iff_eq] at hdt
  exact hdt

/-- Witness for C2 on a concrete two-item catalog: the search returns at most
200 items, and the returned Sentinel-2 item's timestamp falls on
2023-04-01. -/
theorem search_respects_limit_witness :
    (s2SearchRequest.maxItems = some 200 ∧ s2ExampleItem ∈ search s2SearchRequest s2ExampleDb) ∧
      (search s2SearchRequest s2ExampleDb).length ≤ 200 ∧
      dayOf s2ExampleItem.timestamp = day20230401 :=
  ⟨⟨rfl, by decide⟩,
    search_respects_limit.1 s2SearchRequest s2ExampleDb 200 rfl,
    search_respects_limit.2.2 s2ExampleDb s2ExampleItem (by decide)⟩

/-- C9.  Every request issued through an `MLHubSession` resolves its (possibly
relative) URL against the MLHub root URL with a single trailing slash via URL
joining, and carries the configured API key as the `key` query parameter; in
particular the archive download `GET /archive/{collection_id}` does. -/
theorem mlhub_session_request_invariant (key method url : String) :
    ((MLHubSession.mk key).request method url).params = [("key", key)] ∧
    ((MLHubSession.mk key).request method url).url =
      urljoin (rstripSlash MLHUB_ROOT_URL ++ "/") url ∧
    ((MLHubSession.mk key).get "/archive/ref_african_crops_kenya_01_labels").url =
      "https://api.radiant.earth/archive/ref_african_crops_kenya_01_labels" ∧
    ("key", key) ∈ ((MLHubSession.mk key).get
      "/archive/ref_african_crops_kenya_01_labels").params :=
  ⟨rfl, rfl, rfl, by simp [MLHubSession.get, MLHubSession.request,
    MLHubSession.sessionParams]⟩

/-- C8.  Every row of the FIA per-county summary carries `bio` and `carbon`
equal to the sums of `DRYBIO_AG * TPA_UNADJ / 2000` and
`CARBON_AG * TPA_UNADJ / 2000` over the condition-1 tree rows joined to plots
on `PLT_CN` for its `(state, county)` group, with `STATE` the state code as a
decimal string left-padded with `'0'` to width 2 and `COUNTY` the county code
left-padded to width 3. -/
theorem fia_summary_correct (plots : List PlotRow) (trees : List TreeRow) :
    ∀ row ∈ fiaResult plots trees, ∃ s c : ℕ,
      row.STATE = padLeft 2 '0' (toString s) ∧
      row.COUNTY = padLeft 3 '0' (toString c) ∧
      row.bio = (((fiaMerged trees plots).filter fun r =>
          r.plot.STATECD == s && r.plot.COUNTYCD == c).map
            fun r => r.tree.DRYBIO_AG * r.tree.TPA_UNADJ / 2000).sum ∧
      row.carbon = (((fiaMerged trees plots).filter fun r =>
          r.plot.STATECD == s && r.plot.COUNTYCD == c).map
            fun r => r.tree.CARBON_AG * r.tree.TPA_UNADJ / 2000).sum := by
  intro row hrow
  unfold fiaResult at hrow
  obtain ⟨⟨s, c⟩, hk, hrw⟩ := List.mem_map.mp hrow
  exact ⟨s, c, by rw [← hrw], by rw [← hrw],
    by rw [← hrw]; rfl, by rw [← hrw]; rfl⟩

/-- Witness for C8 on a one-plot, two-tree fixture: the summary has the row
with `bio = carbon = 1`, `STATE = "06"`, `COUNTY = "037"`, and that row
satisfies the per-group sum property. -/
theorem fia_summary_correct_witness :
    wSummaryRow ∈ fiaResult wPlots wTrees ∧
      ∃ s c : ℕ,
        wSummaryRow.STATE = padLeft 2 '0' (toString s) ∧
        wSummaryRow.COUNTY = padLeft 3 '0' (toString c) ∧
        wSummaryRow.bio = (((fiaMerged wTrees wPlots).filter fun r =>
            r.plot.STATECD == s && r.plot.COUNTYCD == c).map
              fun r => r.tree.DRYBIO_AG * r.tree.TPA_UNADJ / 2000).sum ∧
        wSummaryRow.carbon = (((fiaMerged wTrees wPlots).filter fun r =>
            r.plot.STATECD == s && r.plot.COUNTYCD == c).map
              fun r => r.tree.CARBON_AG * r.tree.TPA_UNADJ / 2000).sum :=
  ⟨(by
      norm_num [fiaResult, fiaMerged, treeTable, fiaKey, fiaBio, fiaCarbon,
        wPlots, wTrees, wSummaryRow, List.dedup]
      exact ⟨rfl, rfl⟩),
    fia_summary_correct wPlots wTrees wSummaryRow
      (by
        norm_num [fiaResult, fiaMerged, treeTable, fiaKey, fiaBio, fiaCarbon,
          wPlots, wTrees, wSummaryRow, List.dedup]
        exact ⟨rfl, rfl⟩)⟩

/-- C1.  Registering a mosaic and resolving its tilejson with the collection's
default render options yields a tile-URL template containing the returned
`searchid` verbatim, and that template is handed unmodified (as a tile layer's
URL) to the map widget. -/
theorem mosaic_roundtrip_searchid (sid collection filterExpr renderOptions : String)
    (m0 : LMap) :
    ∃ tiles : String,
      mosaicTiles sid collection filterExpr renderOptions = some tiles ∧
      (∃ pre post : String, tiles = pre ++ sid ++ post) ∧
      (mosaicMap m0 sid collection filterExpr renderOptions).layers =
        m0.layers ++ [Layer.tileLayer tiles] := by
  have htiles : mosaicTiles sid collection filterExpr renderOptions =
      some (tileTemplate sid ("collection=" ++ collection ++ "&" ++ renderOptions)) := by
    unfold mosaicTiles registerMosaic getTileJson
    simp
  refine ⟨tileTemplate sid ("collection=" ++ collection ++ "&" ++ renderOptions),
    htiles, ⟨pcDataRoot ++ "/mosaic/tiles/",
      "/WebMercatorQuad/\x7bz\x7d/\x7bx\x7d/\x7by\x7d@1x?" ++
        ("collection=" ++ collection ++ "&" ++ renderOptions), ?_⟩, ?_⟩
  · unfold tileTemplate
    simp [String.append_assoc]
  · unfold mosaicMap
    rw [htiles]
    rfl

/-- The members of `range n` lying in the half-open integer interval `[a, b)`
are exactly the clipped window offsets shifted by the clip start. -/
theorem range_filter_interval (a b : ℤ) : ∀ n : ℕ,
    ((List.range n).filter fun (k : ℕ) => decide (a ≤ (k : ℤ) ∧ (k : ℤ) < b)) =
      (List.range (min (n : ℤ) b - max 0 a).toNat).map
        (fun i => (max 0 a).toNat + i) := by
  intro n
  induction n with
  | zero =>
    have h0 : (min ((0 : ℕ) : ℤ) b - max 0 a).toNat = 0 := by omega
    simp [h0]
  | succ n ih =>
    rw [List.range_succ, List.filter_append, ih]
    by_cases h : a ≤ (n : ℤ) ∧ (n : ℤ) < b
    · have hfilter :
          ([n].filter fun (k : ℕ) => decide (a ≤ (k : ℤ) ∧ (k : ℤ) < b)) = [n] := by
        simp [h]
      have hcnt : (min ((n + 1 : ℕ) : ℤ) b - max 0 a).toNat =
          (min (n : ℤ) b - max 0 a).toNat + 1 := by
        push_cast
        omega
      have hlast : (max 0 a).toNat + (min (n : ℤ) b - max 0 a).toNat = n := by
        omega
      rw [hfilter, hcnt, List.range_succ, List.map_append]
      simp [hlast]
    · have hfilter :
          ([n].filter fun (k : ℕ) => decide (a ≤ (k : ℤ) ∧ (k : ℤ) < b)) = [] := by
        simp [h]
      have hcnt : (min ((n + 1 : ℕ) : ℤ) b - max 0 a).toNat =
          (min (n : ℤ) b - max 0 a).toNat := by
        push_cast
        push_cast at h
        omega
      rw [hfilter, List.append_nil, hcnt]

/-- C6.  The windowed raster read first reprojects the geographic bounds into
the dataset's CRS, computes the pixel window from the reprojected bounds
alone, and returns exactly the pixels of the dataset grid inside that window:
the embedded `create_image` fetch equals the spec-side windowed read. -/
theorem windowed_read_refines_spec (ds : Raster) (aoi : Bounds) (indexes : List ℕ) :
    readWindow ds indexes (from_bounds ds.transform (transform_bounds ds.crs aoi)) =
      specWindowedRead ds aoi indexes ∧
    aoiFetch ds aoi = specWindowedRead ds aoi [1, 2, 3] := by
  have main : ∀ idx : List ℕ,
      readWindow ds idx (from_bounds ds.transform (transform_bounds ds.crs aoi)) =
        specWindowedRead ds aoi idx := by
    intro idx
    by_cases hall : (idx.all fun i => decide (1 ≤ i) && decide (i ≤ ds.count)) = true
    · simp only [readWindow, specWindowedRead, hall, if_true]
      set w := from_bounds ds.transform (transform_bounds ds.crs aoi) with hw
      congr 1
      apply List.map_congr_left
      intro b _
      rw [range_filter_interval w.rowOff w.rowEnd ds.height, List.map_map]
      apply List.map_congr_left
      intro r _
      simp only [Function.comp_apply]
      rw [range_filter_interval w.colOff w.colEnd ds.width, List.map_map]
      rfl
    · simp only [readWindow, specWindowedRead]
      rw [if_neg hall, if_neg hall]
  exact ⟨main indexes, main [1, 2, 3]⟩

/-- C4.  A windowed fetch whose requested geographic bounding box does not
intersect the asset's extent returns an empty (zero-pixel) result, not an
error. -/
theorem outside_bbox_empty_read (ds : Raster) (aoi : Bounds)
    (hsx : 0 < ds.crs.sx) (hsy : 0 < ds.crs.sy)
    (hpx : 0 < ds.transform.px) (hpy : 0 < ds.transform.py)
    (hcount : 3 ≤ ds.count)
    (hdisj : disjointBounds aoi (geoExtent ds)) :
    ∃ bands, aoiFetch ds aoi = Except.ok bands ∧
      ∀ band ∈ bands, ∀ row ∈ band, row = [] := by
  set w := from_bounds ds.transform (transform_bounds ds.crs aoi) with hw
  have hcond : ([1, 2, 3].all fun i => decide (1 ≤ i) && decide (i ≤ ds.count)) = true := by
    simp only [List.all_cons, List.all_nil, Bool.and_true, Bool.and_eq_true,
      decide_eq_true_eq]
    omega
  have hzero : numRows ds w = 0 ∨ numCols ds w = 0 := by
    rcases hdisj with h | h | h | h
    · -- aoi.right ≤ geoExtent.left: the window ends left of the dataset
      right
      have hle : aoi.right * ds.crs.sx ≤ ds.transform.x0 - ds.crs.ox :=
        (le_div_iff₀ hsx).mp h
      have hwr : (transform_bounds ds.crs aoi).right - ds.transform.x0 ≤ 0 := by
        simp only [transform_bounds]
        linarith [hle, mul_comm ds.crs.sx aoi.right]
      have hdiv : ((transform_bounds ds.crs aoi).right - ds.transform.x0) /
          ds.transform.px ≤ 0 :=
        div_nonpos_iff.mpr (Or.inr ⟨hwr, hpx.le⟩)
      have hceil : w.colEnd ≤ 0 := by
        show ⌈((transform_bounds ds.crs aoi).right - ds.transform.x0) /
          ds.transform.px⌉ ≤ 0
        exact Int.ceil_le.mpr (by exact_mod_cast hdiv)
      unfold numCols colHi colLo
      omega
    · -- geoExtent.right ≤ aoi.left: the window starts right of the dataset
      right
      have hle : ds.transform.x0 + ds.transform.px * ds.width - ds.crs.ox ≤
          aoi.left * ds.crs.sx :=
        (div_le_iff₀ hsx).mp h
      have hwl : (ds.width : ℚ) * ds.transform.px ≤
          (transform_bounds ds.crs aoi).left - ds.transform.x0 := by
        simp only [transform_bounds]
        linarith [hle, mul_comm ds.crs.sx aoi.left,
          mul_comm ds.transform.px (ds.width : ℚ)]
      have hdiv : (ds.width : ℚ) ≤
          ((transform_bounds ds.crs aoi).left - ds.transform.x0) / ds.transform.px :=
        (le_div_iff₀ hpx).mpr hwl
      have hfloor : (ds.width : ℤ) ≤ w.colOff := by
        show (ds.width : ℤ) ≤
          ⌊((transform_bounds ds.crs aoi).left - ds.transform.x0) / ds.transform.px⌋
        exact Int.le_floor.mpr (by exact_mod_cast hdiv)
      unfold numCols colHi colLo
      omega
    · -- aoi.top ≤ geoExtent.bottom: the window starts below the dataset
      left
      have hle : aoi.top * ds.crs.sy ≤
          ds.transform.y0 - ds.transform.py * ds.height - ds.crs.oy :=
        (le_div_iff₀ hsy).mp h
      have hwt : (ds.height : ℚ) * ds.transform.py ≤
          ds.transform.y0 - (transform_bounds ds.crs aoi).top := by
        simp only [transform_bounds]
        linarith [hle, mul_comm ds.crs.sy aoi.top,
          mul_comm ds.transform.py (ds.height : ℚ)]
      have hdiv : (ds.height : ℚ) ≤
          (ds.transform.y0 - (transform_bounds ds.crs aoi).top) / ds.transform.py :=
        (le_div_iff₀ hpy).mpr hwt
      have hfloor : (ds.height : ℤ) ≤ w.rowOff := by
        show (ds.height : ℤ) ≤
          ⌊(ds.transform.y0 - (transform_bounds ds.crs aoi).top) / ds.transform.py⌋
        exact Int.le_floor.mpr (by exact_mod_cast hdiv)
      unfold numRows rowHi rowLo
      omega
    · -- geoExtent.top ≤ aoi.bottom: the window ends above the dataset
      left
      have hle : ds.transform.y0 - ds.crs.oy ≤ aoi.bottom * ds.crs.sy :=
        (div_le_iff₀ hsy).mp h
      have hwb : ds.transform.y0 - (transform_bounds ds.crs aoi).bottom ≤ 0 := by
        simp only [transform_bounds]
        linarith [hle, mul_comm ds.crs.sy aoi.bottom]
      have hdiv : (ds.transform.y0 - (transform_bounds ds.crs aoi).bottom) /
          ds.transform.py ≤ 0 :=
        div_nonpos_iff.mpr (Or.inr ⟨hwb, hpy.le⟩)
      have hceil : w.rowEnd ≤ 0 := by
        show ⌈(ds.transform.y0 - (transform_bounds ds.crs aoi).bottom) /
          ds.transform.py⌉ ≤ 0
        exact Int.ceil_le.mpr (by exact_mod_cast hdiv)
      unfold numRows rowHi rowLo
      omega
  refine ⟨[1, 2, 3].map fun b =>
      (List.range (numRows ds w)).map fun r =>
        (List.range (numCols ds w)).map fun c =>
          ds.pix b ((rowLo w).toNat + r) ((colLo w).toNat + c), ?_, ?_⟩
  · show readWindow ds [1, 2, 3] w = _
    unfold readWindow
    rw [if_pos hcond]
  · intro band hband row hrow
    obtain ⟨b, _, hbdef⟩ := List.mem_map.mp hband
    rcases hzero with h0 | h0
    · rw [← hbdef, h0] at hrow
      simp at hrow
    · rw [← hbdef] at hrow
      obtain ⟨r, _, hrdef⟩ := List.mem_map.mp hrow
      rw [← hrdef, h0]
      simp

/-- Witness for C4: the fixture dataset and the bounding box entirely west of
it give an `ok` result all of whose rows are empty. -/
theorem outside_bbox_empty_read_witness :
    (0 < wRaster.crs.sx ∧ 0 < wRaster.crs.sy ∧ 0 < wRaster.transform.px ∧
      0 < wRaster.transform.py ∧ 3 ≤ wRaster.count ∧
      disjointBounds wOutsideAoi (geoExtent wRaster)) ∧
    ∃ bands, aoiFetch wRaster wOutsideAoi = Except.ok bands ∧
      ∀ band ∈ bands, ∀ row ∈ band, row = [] :=
  ⟨⟨by norm_num [wRaster], by norm_num [wRaster], by norm_num [wRaster],
      by norm_num [wRaster], by norm_num [wRaster],
      by norm_num [disjointBounds, geoExtent, wRaster, wOutsideAoi]⟩,
    outside_bbox_empty_read wRaster wOutsideAoi
      (by norm_num [wRaster]) (by norm_num [wRaster]) (by norm_num [wRaster])
      (by norm_num [wRaster]) (by norm_num [wRaster])
      (by norm_num [disjointBounds, geoExtent, wRaster, wOutsideAoi])⟩
